import Mathlib

/-!
Verification development for the md5dir manifest tool
(src/scripts/md5dir.py).  Python functions are shallowly embedded as Lean
definitions: file contents are lists of byte values (Nat with values
below 256), paths are strings, fallible operations return Except, and
the globbing of the fnmatch library and the regular expression used by
getDictionary are embedded as executable character-list functions.  The
md5 digest itself is an external library; since it is a pure function of
the bytes fed to it, the embedded checksum functions return the byte
stream that the Python code feeds into md5.new, and two calls produce
the same hexdigest exactly when those streams are equal.
-/

namespace Md5dir

/-! ### Path helpers (os.path) -/

/-- Boolean prefix test on character lists, used to embed string
prefix checks with a function that evaluates inside the kernel. -/
def labelPre : List Char → List Char → Bool
  | [], _ => true
  | _ :: _, [] => false
  | a :: as, b :: bs => a == b && labelPre as bs

/-- String prefix test via labelPre. -/
def pyStartsWith (s pre : String) : Bool := labelPre pre.data s.data

/-- String suffix test (str.endswith), via a prefix test on the
reversed character lists. -/
def pyEndsWith (s suf : String) : Bool :=
  labelPre suf.data.reverse s.data.reverse

/-- Embedding of os.path.join for a relative second component: if the
second part is absolute it replaces the first; joining with an empty
first part returns the second part unchanged; otherwise a slash is
inserted.  This mirrors posixpath.join for the inputs the tool uses. -/
def pyJoin (a b : String) : String :=
  if pyStartsWith b "/" then b
  else if a = "" then b
  else if pyEndsWith a "/" then a ++ b
  else a ++ "/" ++ b

/-- Embedding of os.path.isabs on POSIX: a path is absolute when it
starts with a slash. -/
def pyIsAbs (p : String) : Bool := pyStartsWith p "/"

/-- Embedding of os.path.abspath relative to a fixed process working
directory: absolute paths are returned unchanged, relative ones are
joined to the working directory.  Dot-segment normalisation is not
modelled; the inputs used in this development contain none. -/
def pyAbspath (cwd p : String) : String :=
  if pyIsAbs p then p else pyJoin cwd p

/-- Python string slicing s[2:], used on the roots produced by os.walk
at line 145 of md5dir.py. -/
def strDrop2 (s : String) : String := ⟨s.data.drop 2⟩

/-- Embedding of str.split(",") from line 264 of md5dir.py, at the
character-list level. -/
def splitCommaAux : List Char → List Char → List String
  | acc, [] => [⟨acc.reverse⟩]
  | acc, ',' :: rest => (⟨acc.reverse⟩ : String) :: splitCommaAux [] rest
  | acc, c :: rest => splitCommaAux (c :: acc) rest

/-- Python value.split(","): splits on every comma, never returns an
empty list. -/
def splitComma (s : String) : List String := splitCommaAux [] s.data

/-! ### fnmatch

The ignore function of md5dir (lines 130-132) calls fnmatch.fnmatch,
which translates the glob pattern to a regular expression: a star
becomes dot-star (matching any characters, newlines included), a
question mark matches one character, a bracket expression becomes a
regex character class (with leading exclamation mark for negation and
dashes for ranges; if no closing bracket follows, the open bracket is a
literal), and the whole pattern is anchored at both ends.  On POSIX,
os.path.normcase is the identity, so casefolding does not occur.  The
matcher below embeds the semantics of that translated regex.  It
recurses on a fuel argument so that it is structurally recursive and
evaluates inside the kernel; every recursive call consumes at least one
pattern character and one unit of fuel, so the initial fuel of pattern
length plus one makes the zero-fuel branch unreachable. -/

/-- Membership of a character in a regex character class body, with
dash ranges; a dash that is first or last is a literal, as in the
classes produced by fnmatch.translate. -/
def classMatch : List Char → Char → Bool
  | a :: '-' :: b :: rest, c => (a ≤ c && c ≤ b) || classMatch rest c
  | a :: rest, c => (a == c) || classMatch rest c
  | [], _ => false

/-- Evaluation of a full class body: a leading exclamation mark negates
the class, as fnmatch.translate turns it into a caret. -/
def classBody (body : List Char) (c : Char) : Bool :=
  match body with
  | '!' :: items => !(classMatch items c)
  | items => classMatch items c

/-- Splitting of the characters following an open bracket at the
closing bracket, returning the class body and the remaining pattern;
none when the bracket is unclosed. -/
def scanTo : List Char → Option (List Char × List Char)
  | [] => none
  | ']' :: rest => some ([], rest)
  | c :: rest =>
    match scanTo rest with
    | none => none
    | some (b, r) => some (c :: b, r)

/-- Bracket scan of fnmatch.translate: an exclamation mark directly
after the open bracket, and a closing bracket directly after that, are
part of the class body rather than terminators. -/
def splitClass (p : List Char) : Option (List Char × List Char) :=
  match p with
  | '!' :: ']' :: rest =>
    match scanTo rest with
    | none => none
    | some (b, r) => some ('!' :: ']' :: b, r)
  | '!' :: rest =>
    match scanTo rest with
    | none => none
    | some (b, r) => some ('!' :: b, r)
  | ']' :: rest =>
    match scanTo rest with
    | none => none
    | some (b, r) => some (']' :: b, r)
  | rest =>
    match scanTo rest with
    | none => none
    | some (b, r) => some (b, r)

/-- Fueled glob matcher against a subject string; the star case tries
every suffix of the subject, which is the semantics of dot-star in the
translated regex. -/
def fnmatchGo : Nat → List Char → List Char → Bool
  | _, [], s => s.isEmpty
  | 0, _ :: _, _ => false
  | fuel + 1, '*' :: p, s => s.tails.any fun t => fnmatchGo fuel p t
  | fuel + 1, '?' :: p, s =>
    match s with
    | [] => false
    | _ :: s2 => fnmatchGo fuel p s2
  | fuel + 1, '[' :: p, s =>
    match splitClass p, s with
    | none, c :: s2 => c == '[' && fnmatchGo fuel p s2
    | none, [] => false
    | some (body, p2), c :: s2 => classBody body c && fnmatchGo fuel p2 s2
    | some _, [] => false
  | fuel + 1, a :: p, s =>
    match s with
    | [] => false
    | c :: s2 => a == c && fnmatchGo fuel p s2

/-- Embedding of fnmatch.fnmatch(name, pat) on POSIX. -/
def fnmatch (name pat : String) : Bool :=
  fnmatchGo (pat.data.length + 1) pat.data name.data

/-- Embedding of Md5dir.ignore (lines 130-132): a filename is ignored
when at least one configured glob pattern matches it. -/
def pyIgnore (ignores : List String) (filename : String) : Bool :=
  ignores.any fun i => fnmatch filename i

/-! ### Walker (Md5dir.masterList, lines 135-164)

A directory tree is a rose tree of named directories holding plain
files.  Symbolic links are not modelled: every file is a regular file,
so the islink branch of masterList is never taken.  The walk is
embedded with os.walk semantics: top-down, starting at the dot path
after the chdir into the start directory, yielding for every directory
its path (joined with os.path.join, hence the leading dot-slash on
subdirectories) and its file names, and always descending into
subdirectories regardless of how the caller treats the yielded
entries. -/

inductive FsTree where
  | node (name : String) (files : List String) (subdirs : List FsTree)

/-- Name of the directory a tree node represents. -/
def FsTree.name : FsTree → String
  | .node n _ _ => n

/-- Files directly inside a tree node. -/
def FsTree.files : FsTree → List String
  | .node _ fs _ => fs

/-- Subdirectories of a tree node. -/
def FsTree.subdirs : FsTree → List FsTree
  | .node _ _ ds => ds

mutual
/-- Executable size measure of a tree, used as walk fuel. -/
def FsTree.size : FsTree → Nat
  | .node _ _ subs => FsTree.sizeList subs + 1

/-- Executable size measure of a list of trees. -/
def FsTree.sizeList : List FsTree → Nat
  | [] => 0
  | t :: rest => FsTree.size t + FsTree.sizeList rest + 1
end

mutual
/-- Fueled os.walk: yields the current directory and recurses into
subdirectories.  The fuel is bounded below by the size of the tree in
every call made from osWalk, so the zero-fuel branch is unreachable. -/
def osWalkGo : Nat → String → FsTree → List (String × List String)
  | 0, _, _ => []
  | fuel + 1, p, .node _ files subs => (p, files) :: osWalkSubsGo fuel p subs

/-- Fueled walk over a list of subdirectories, in order. -/
def osWalkSubsGo : Nat → String → List FsTree → List (String × List String)
  | _, _, [] => []
  | 0, _, _ :: _ => []
  | fuel + 1, p, t :: rest =>
    osWalkGo fuel (pyJoin p t.name) t ++ osWalkSubsGo fuel p rest
end

/-- Embedding of os.walk(".") as called by masterList after chdir into
the start directory. -/
def osWalk (tree : FsTree) : List (String × List String) :=
  osWalkGo tree.size "." tree

/-- Embedding of Md5dir.masterList (lines 135-164), restricted to trees
without symbolic links: for every walked directory, if the walk root
string matches the ignore set the files of that directory are skipped
(the Python continue statement; the walk itself still descends), and
otherwise every file is joined to the root with the first two
characters of the root stripped and kept unless its joined relative
path matches the ignore set. -/
def masterList (ignores : List String) (tree : FsTree) : List String :=
  (osWalk tree).flatMap fun rf =>
    if pyIgnore ignores rf.1 then []
    else
      rf.2.filterMap fun fname =>
        let f := pyJoin (strDrop2 rf.1) fname
        if pyIgnore ignores f then none else some f

/-! ### HashAlgorithm (Md5dir.calcsum and Md5dir.calculateUID)

File contents are byte lists.  A filesystem maps a path to some
content, or to none when opening or reading the file raises IOError
(missing file or permission denied).  The embedded checksum functions
return the byte stream handed to md5.new; two files get the same
hexdigest exactly when their streams are equal, because md5 is a pure
function of its input. -/

/-- Errors that can escape the embedded file operations: IOError from
open, read or seek. -/
inductive PyErr where
  | ioError
  | unboundLocal
deriving DecidableEq

deriving instance DecidableEq for Except

/-- Result of Md5dir.calcsum: either the sentinel -1 returned at line
195 when the file cannot be read, or the hexdigest of a byte stream. -/
inductive CalcResult where
  | fileUnreadable
  | digestOf (stream : List Nat)
deriving DecidableEq

/-- Chunked read loop of calcsum (lines 186-191): reads blocks of
1048576 bytes until the read returns the empty string, feeding each
block to the hash.  The concatenation of the blocks is the stream
hashed by the default mode. -/
def chunkRead (l : List Nat) : List Nat :=
  if l = [] then []
  else l.take 1048576 ++ chunkRead (l.drop 1048576)
termination_by l.length
decreasing_by
  rename_i h
  have hl : 0 < l.length := List.length_pos.mpr h
  simp only [List.length_drop]
  omega

/-- Body size computation of the ID3v2 header at line 299 of md5dir.py:
the four size bytes are combined with shifts and additions, without
masking any byte to its low seven bits. -/
def bodysizeOfBytes (b0 b1 b2 b3 : Nat) : Nat :=
  (b0 <<< 21) + (b1 <<< 14) + (b2 <<< 7) + b3

/-- Modelled from the spec: the synchsafe size formula of section 4.1,
size = (b0 and 0x7f) shifted 21, or-ed with (b1 and 0x7f) shifted 14,
or-ed with (b2 and 0x7f) shifted 7, or-ed with (b3 and 0x7f); each
byte contributes only its low seven bits.  This is the comparison
definition for claim C3; the code definition is bodysizeOfBytes. -/
def synchsafeSpecSize (b0 b1 b2 b3 : Nat) : Nat :=
  ((b0 &&& 127) <<< 21) ||| ((b1 &&& 127) <<< 14) ||| ((b2 &&& 127) <<< 7) ||| (b3 &&& 127)

/-- Embedding of Md5dir.calculateUID (lines 278-311) on the content of
an already opened file, returning the byte stream fed to md5.new.  The
function first seeks to 128 bytes before the end of the file; on a file
shorter than 128 bytes that seek computes a negative offset and raises
IOError.  It then subtracts 128 from the finish offset when the last
128 bytes start with TAG, and, when the first three bytes are ID3,
reads the byte at offset 3 as the flags byte and the bytes at offsets
4 to 7 as the synchsafe size (the code never reads the two version
bytes, so these offsets are two less than the ones its comments
describe), placing the start of the hashed region at 8 plus the
computed body size, plus 10 more when bit 4 of the flags byte is set.
A read of a negative count, which happens when start exceeds finish,
reads to the end of the file as in Python 2. -/
def calculateUID (content : List Nat) : Except PyErr (List Nat) :=
  let size := content.length
  if size < 128 then .error .ioError
  else
    let finish := if (content.drop (size - 128)).take 3 = [84, 65, 71] then size - 128 else size
    if content.take 3 = [73, 68, 51] then
      let flags := content.getD 3 0
      let footer := flags &&& (1 <<< 4)
      let bodysize := bodysizeOfBytes (content.getD 4 0) (content.getD 5 0)
        (content.getD 6 0) (content.getD 7 0)
      let start := 8 + bodysize + (if footer ≠ 0 then 10 else 0)
      if start ≤ finish then .ok ((content.drop start).take (finish - start))
      else .ok (content.drop start)
    else
      .ok (content.take finish)

/-- Embedding of Md5dir.calcsum (lines 178-195): in mp3 mode a path
ending in .mp3 is checksummed by calculateUID with no exception
handler, so an IOError from open or seek propagates; every other file
is read in chunks inside a try block that turns IOError into the
sentinel -1. -/
def calcsum (mp3mode : Bool) (fsys : String → Option (List Nat)) (filepath : String) :
    Except PyErr CalcResult :=
  if mp3mode && pyEndsWith filepath ".mp3" then
    match fsys filepath with
    | none => .error .ioError
    | some content => (calculateUID content).map .digestOf
  else
    match fsys filepath with
    | none => .ok .fileUnreadable
    | some content => .ok (.digestOf (chunkRead content))

/-- Embedding of Md5dir.makesums (lines 167-175), parametrised by the
file list that masterList returned for the root: each file is
checksummed at its path joined to the root; the sentinel -1 is dropped
from the resulting dictionary, and an exception escaping calcsum aborts
the whole computation. -/
def makesums (mp3mode : Bool) (fsys : String → Option (List Nat)) (root : String) :
    List String → Except PyErr (List (String × List Nat))
  | [] => .ok []
  | fname :: rest =>
    match calcsum mp3mode fsys (pyJoin root fname) with
    | .error e => .error e
    | .ok h =>
      match makesums mp3mode fsys root rest with
      | .error e => .error e
      | .ok tail =>
        match h with
        | .fileUnreadable => .ok tail
        | .digestOf s => .ok ((fname, s) :: tail)

/-! ### Orchestrator state and the analyzeDirs loop (lines 221-240)

The relevant mutable state of the Md5dir object is the hashfile
attribute (default the string md5sum, class attribute at line 67) and
the hashfiles list (default empty, line 75); parseArgs (lines 263-265)
fills both from the --hashfile option.  The analyzeDirs loop is
embedded as a function that records, for every directory argument, the
path handed to getDictionary (the prior manifest that is loaded) and
the path that writesums writes the fresh manifest to.  The local
variable hashfile assigned at line 232 is modelled as an Option that
starts at none; reading it while none raises UnboundLocalError, which
is what the branch at line 235 does in the default mode because the
assignment at line 232 makes hashfile local to the whole method. -/

structure ArgState where
  hashfile : String
  hashfiles : List String
deriving DecidableEq

/-- Attribute defaults of the Md5dir class (lines 67 and 75). -/
def initArgs : ArgState := { hashfile := "md5sum", hashfiles := [] }

/-- Effect of the --hashfile option in parseArgs (lines 263-265): the
value is split on commas into the hashfiles list, and the hashfile
attribute becomes the absolute path of the first element. -/
def parseHashfile (cwd value : String) (st : ArgState) : ArgState :=
  let hfs := splitComma value
  { st with hashfiles := hfs, hashfile := pyAbspath cwd (hfs.headD "") }

/-- Path that writesums (line 319) actually writes: the hashfile
argument itself when absolute, otherwise the hashfile joined to the
root being summed. -/
def writesumsPath (hashfile root : String) : String :=
  if pyIsAbs hashfile then hashfile else pyJoin root hashfile

/-- Body of the analyzeDirs loop (lines 227-238) over the directory
arguments, tracking the loop index and the method-local variable
hashfile, and returning for every directory the pair of the load path
passed to getDictionary and the write path used by writesums.  In the
branch with a nonempty hashfiles list the local is assigned the
absolute path of the indexed entry but the load path taken is the
hashfile attribute (line 233); in the other branch the load path joins
the directory with the local variable, which was never assigned when
hashfiles is empty. -/
def analyzeDirsLoop (cwd : String) (st : ArgState) :
    List String → Nat → Option String → Except PyErr (List (String × String))
  | [], _, _ => .ok []
  | start :: rest, i, hfLocal =>
    if st.hashfiles.isEmpty then
      match hfLocal with
      | none => .error .unboundLocal
      | some hf => do
        let tail ← analyzeDirsLoop cwd st rest (i + 1) hfLocal
        .ok ((pyJoin start hf, writesumsPath st.hashfile start) :: tail)
    else do
      let hfLocal2 := some (pyAbspath cwd (st.hashfiles.getD i ""))
      let tail ← analyzeDirsLoop cwd st rest (i + 1) hfLocal2
      .ok ((st.hashfile, writesumsPath st.hashfile start) :: tail)

/-- Embedding of analyzeDirs (lines 221-240) as the trace of manifest
load and write paths: none models the early return False at line 224
when an explicit hashfile list does not match the number of directory
arguments; the isdir test at line 228 is not modelled, every argument
being taken to be a directory. -/
def analyzeDirsTrace (cwd : String) (st : ArgState) (dirs : List String) :
    Option (Except PyErr (List (String × String))) :=
  if !st.hashfiles.isEmpty && st.hashfiles.length != dirs.length then none
  else some (analyzeDirsLoop cwd st dirs 0 none)

/-! ### ManifestStore (Md5dir.getDictionary and Md5dir.writesums)

The manifest file is modelled at the character-list level.  A manifest
in memory is an association list from filename to checksum, standing
for the Python dictionary; lookups take the first matching key, and
dictionary assignment overwrites the binding of an existing key. -/

/-- Lookup in an association list, first binding wins. -/
def alookup : List (List Char × List Char) → List Char → Option (List Char)
  | [], _ => none
  | (k, v) :: rest, key => if k = key then some v else alookup rest key

/-- Dictionary assignment d[k] = v: overwrites the first binding of k,
or appends a new binding. -/
def dinsert : List (List Char × List Char) → List Char → List Char →
    List (List Char × List Char)
  | [], k, v => [(k, v)]
  | (k2, v2) :: rest, k, v =>
    if k2 = k then (k, v) :: rest else (k2, v2) :: dinsert rest k v

/-- Characters accepted by the character class 0-9a-f of the md5line
regular expression at line 79. -/
def isHexLower (c : Char) : Bool :=
  ('0' ≤ c && c ≤ '9') || ('a' ≤ c && c ≤ 'f')

/-- Match of the md5line pattern against the newline-stripped body of a
line: thirty-two lowercase hex digits captured, one space, one space or
star, then the rest captured; the body may not contain a newline, since
the dot of the pattern never matches one. -/
def md5lineBody (body : List Char) : Option (List Char × List Char) :=
  if body.any (· = '\n') then none
  else if (body.take 32).length = 32 && (body.take 32).all isHexLower then
    match body.drop 32 with
    | ' ' :: c :: tail => if c = ' ' || c = '*' then some (body.take 32, tail) else none
    | _ => none
  else none

/-- Embedding of the anchored regular expression md5line (line 79):
Python re.match lets the final anchor match just before a newline that
ends the string, so one trailing newline is stripped before the body is
matched.  Returns the checksum and filename captures. -/
def md5line (line : List Char) : Option (List Char × List Char) :=
  md5lineBody (if line.getLast? = some '\n' then line.dropLast else line)

/-- Line iteration of a Python text file: each yielded line keeps its
trailing newline; a final fragment without a newline is yielded as is;
nothing is yielded after the last newline of a newline-terminated
file. -/
def pyLinesAux : List Char → List Char → List (List Char)
  | acc, [] => if acc.isEmpty then [] else [acc.reverse]
  | acc, c :: rest =>
    if c = '\n' then (acc.reverse ++ ['\n']) :: pyLinesAux [] rest
    else pyLinesAux (c :: acc) rest

/-- Lines of a file content, as iterated by getDictionary. -/
def pyLines (content : List Char) : List (List Char) := pyLinesAux [] content

/-- Loop body of getDictionary (lines 120-125): every line matching
md5line adds the binding filename to checksum; other lines are
skipped.  The rstrip with an empty strip set at line 121 removes
nothing and is therefore not represented. -/
def getDictLines : List (List Char) → List (List Char × List Char) →
    List (List Char × List Char)
  | [], d => d
  | line :: rest, d =>
    match md5line line with
    | none => getDictLines rest d
    | some (sum, fname) => getDictLines rest (dinsert d fname sum)

/-- Embedding of Md5dir.getDictionary (lines 113-127): none stands for
a missing file, for which an empty dictionary is returned; otherwise
the matching lines of the content are folded into a dictionary. -/
def getDictionary : Option (List Char) → List (List Char × List Char)
  | none => []
  | some content => getDictLines (pyLines content) []

/-- Line written by writesums for one manifest entry (line 323):
checksum, two spaces, filename, newline. -/
def entryLine (e : List Char × List Char) : List Char :=
  e.2 ++ [' ', ' '] ++ e.1 ++ ['\n']

/-- Header line written by writesums (line 321). -/
def headerLine (root : List Char) : List Char :=
  [Char.ofNat 35] ++ "md5dir ".data ++ root ++ ['\n']

/-- Ordering on filenames used by sorted with the first projection as
key: lexicographic on the character codes. -/
def pyLexLe (a b : List Char) : Bool :=
  match a, b with
  | [], _ => true
  | _ :: _, [] => false
  | x :: xs, y :: ys => x < y || (x == y && pyLexLe xs ys)

/-- Sort key relation for writesums. -/
def entryLe (x y : List Char × List Char) : Prop := pyLexLe x.1 y.1 = true

instance : DecidableRel entryLe := fun x y => by
  unfold entryLe; infer_instance

/-- Embedding of Md5dir.writesums (lines 314-323) producing the file
content: the md5dir header line, then one entry line per manifest
entry, sorted by filename. -/
def writesums (root : List Char) (checksums : List (List Char × List Char)) : List Char :=
  headerLine root ++ ((checksums.insertionSort entryLe).map entryLine).flatten

/-! ### ManifestDiff and reporting (Md5dir.comparemd5dict, lines 82-94)

The DictDiffer class lives in the dictdiff module, which is imported at
line 54 but is not part of the repository sources.  Its four set
computations are modelled from the spec, section 4.4: Added is the new
paths minus the old, Deleted the old minus the new, and paths present
in both are Changed when the checksums differ and Unchanged otherwise.
comparemd5dict constructs DictDiffer(d2, d1), so d2 is the current
dictionary and d1 the past one.  The sets are represented as the
sublists of the key lists satisfying the membership conditions. -/

/-- Keys of a manifest dictionary. -/
def dKeys (d : List (String × String)) : List String := d.map Prod.fst

/-- Lookup in a string-keyed manifest, first binding wins. -/
def slookup : List (String × String) → String → Option String
  | [], _ => none
  | (k, v) :: rest, key => if k = key then some v else slookup rest key

/-- Modelled from the spec: Added, the paths of the current dictionary
absent from the past one. -/
def diffAdded (cur past : List (String × String)) : List String :=
  (dKeys cur).filter fun k => !(dKeys past).contains k

/-- Modelled from the spec: Deleted, the paths of the past dictionary
absent from the current one. -/
def diffRemoved (cur past : List (String × String)) : List String :=
  (dKeys past).filter fun k => !(dKeys cur).contains k

/-- Modelled from the spec: Changed, the paths present in both
dictionaries whose checksums differ. -/
def diffChanged (cur past : List (String × String)) : List String :=
  (dKeys cur).filter fun k =>
    (dKeys past).contains k && slookup past k != slookup cur k

/-- Modelled from the spec: Unchanged, the paths present in both
dictionaries whose checksums agree. -/
def diffUnchanged (cur past : List (String × String)) : List String :=
  (dKeys cur).filter fun k =>
    (dKeys past).contains k && slookup past k == slookup cur k

/-- Embedding of Md5dir.outputFileList (lines 97-100): one log line per
file of the list that does not match the ignore set, in the format
label, colon, space, filename. -/
def outputFileList (ignores : List String) (label : String) (filelist : List String) :
    List String :=
  (filelist.filter fun fname => !pyIgnore ignores fname).map
    fun fname => label ++ ": " ++ fname

/-- Embedding of Md5dir.comparemd5dict (lines 82-94) with quiet mode
off, collecting the log lines it emits: the ignore-filtered ADDED,
DELETED and CHANGED lines, the LOCATION line, and the STATUS line whose
four counts are the sizes of the unfiltered sets. -/
def comparemd5dict (ignores : List String) (d1 d2 : List (String × String))
    (root : String) : List String :=
  let added := diffAdded d2 d1
  let deleted := diffRemoved d2 d1
  let changed := diffChanged d2 d1
  let unchanged := diffUnchanged d2 d1
  outputFileList ignores "ADDED" added ++
  outputFileList ignores "DELETED" deleted ++
  outputFileList ignores "CHANGED" changed ++
  ["LOCATION: " ++ root,
   "STATUS: confirmed " ++ Nat.repr unchanged.length ++
     " added " ++ Nat.repr added.length ++
     " deleted " ++ Nat.repr deleted.length ++
     " changed " ++ Nat.repr changed.length]

/-! ### General lemmas about the embedded operations -/

/-- Appending strings concatenates their character lists. -/
theorem strData_append (s t : String) : (s ++ t).data = s.data ++ t.data := rfl

/-- A character list is a labelPre of itself followed by anything. -/
theorem labelPre_append (p rest : List Char) : labelPre p (p ++ rest) = true := by
  induction p with
  | nil => rfl
  | cons a as ih => simp [labelPre, ih]

/-- A failed prefix test cannot be repaired by appending characters
beyond the compared region. -/
theorem labelPre_append_false (p s t : List Char) (h : labelPre p s = false)
    (hl : p.length ≤ s.length) : labelPre p (s ++ t) = false := by
  induction p generalizing s with
  | nil => exact absurd h (by simp [labelPre])
  | cons a as ih =>
    match s with
    | [] => exact absurd hl (by simp)
    | b :: bs =>
      simp only [labelPre, List.cons_append, Bool.and_eq_false_iff] at h ⊢
      rcases h with h | h
      · exact Or.inl h
      · exact Or.inr (ih bs h (by simpa using hl))

/-- Every string starting with a given label passes the prefix test for
that label. -/
theorem pyStartsWith_label (label f : String) : pyStartsWith (label ++ f) label = true := by
  show labelPre label.data (label ++ f).data = true
  rw [strData_append]
  exact labelPre_append _ _

/-- The chunked read loop of calcsum concatenates the whole file. -/
theorem chunkRead_eq (l : List Nat) : chunkRead l = l := by
  induction l using chunkRead.induct with
  | case1 => simp [chunkRead]
  | case2 l hl ih =>
    rw [chunkRead, if_neg hl, ih, List.take_append_drop]

/-! ### Claim C1

Claim: for every root directory and ignore set, masterList never
includes a file lying under a directory whose relative path matches an
ignore pattern; with ignore pattern build, the file build/output.txt is
excluded.  The code refutes it: masterList tests the ignore set against
the os.walk root, which is dot-slash-build rather than build, so the
pattern never matches, and the continue statement would not have pruned
the subtree anyway; the file below evaluates masterList at the failing
input and shows the supposedly excluded file is returned. -/

/-- Claim C1 is false on the code: with ignore pattern build and a root
holding only the directory build with the single file output.txt inside
it, masterList returns build/output.txt instead of excluding it; the
ignore test against the walked directory root dot-slash-build fails
even though the relative path build matches the pattern. -/
theorem masterList_ignored_dir_file_included :
    masterList ["build"] (FsTree.node "top" [] [FsTree.node "build" ["output.txt"] []]) =
      ["build/output.txt"] ∧
    fnmatch "build" "build" = true ∧
    fnmatch "./build" "build" = false := by
  exact ⟨by decide, by decide, by decide⟩

/-! ### Claim C2

Claim: in mp3 mode, a synthetic file made of a 10 byte ID3v2 header
declaring body size N, N body bytes, K payload bytes and a 128 byte TAG
block hashes identically to a file holding only the K payload bytes.
The code refutes it: calculateUID reads the flags byte at offset 3 and
the size bytes at offsets 4 to 7, never skipping the two version bytes,
which contradicts its own comments placing the flags at byte 5 and the
size at bytes 6 to 9. -/

/-- Claim C2 is false on the code: for the synthetic file with header
ID3, version bytes 3 and 0, flags 0, synchsafe size 5, a 5 byte body,
the 2 byte payload 9 9 and a TAG block, calculateUID hashes the region
starting at offset 8 (the last two size bytes, the body and the
payload) instead of the payload alone, while the default checksum of
the payload file hashes exactly the payload; the streams differ, hence
so do the digests. -/
theorem calculateUID_does_not_skip_version_bytes :
    calculateUID ([73, 68, 51, 3, 0, 0, 0, 0, 0, 5] ++ [1, 2, 3, 4, 5] ++ [9, 9] ++
        ([84, 65, 71] ++ List.replicate 125 0)) = .ok [0, 5, 1, 2, 3, 4, 5, 9, 9] ∧
    calcsum false (fun _ => some [9, 9]) "payload" = .ok (.digestOf [9, 9]) ∧
    ([0, 5, 1, 2, 3, 4, 5, 9, 9] : List Nat) ≠ [9, 9] := by
  refine ⟨by set_option maxRecDepth 4000 in decide, ?_, by decide⟩
  show (if false && pyEndsWith "payload" ".mp3" then _ else _ : Except PyErr CalcResult) = _
  simp [chunkRead_eq]

/-! ### Claim C3

Claim: the synchsafe body size masks every byte to its low seven bits,
for every possible input.  The code computes the size without masking
(line 299), so the claim fails whenever a byte has its high bit set; it
holds on the bytes of every well formed synchsafe integer, which have
the high bit clear. -/

/-- Claim C3 as stated is false at the concrete input 128 0 0 0: the
code combines the bytes unmasked, producing 268435456 where the masked
synchsafe formula of the claim produces 0. -/
theorem bodysize_unmasked_counterexample :
    bodysizeOfBytes 128 0 0 0 ≠ synchsafeSpecSize 128 0 0 0 := by decide

/-- Claim C3 amended: the body size is computed without masking, and it
agrees with the masked synchsafe formula of the claim exactly on inputs
whose four bytes all have the high bit clear. -/
theorem bodysize_eq_synchsafe_of_high_bits_clear
    (b0 b1 b2 b3 : Nat) (h0 : b0 < 128) (h1 : b1 < 128) (h2 : b2 < 128) (h3 : b3 < 128) :
    bodysizeOfBytes b0 b1 b2 b3 = synchsafeSpecSize b0 b1 b2 b3 := by
  have mask : ∀ b : Nat, b < 128 → b &&& 127 = b := by
    intro b hb
    rw [show (127 : Nat) = 2 ^ 7 - 1 by norm_num, Nat.and_pow_two_sub_one_eq_mod,
      Nat.mod_eq_of_lt hb]
  unfold bodysizeOfBytes synchsafeSpecSize
  rw [mask b0 h0, mask b1 h1, mask b2 h2, mask b3 h3]
  rw [Nat.lor_assoc, Nat.lor_assoc]
  rw [Nat.shiftLeft_eq, Nat.shiftLeft_eq, Nat.shiftLeft_eq]
  have e7 : (2 : Nat) ^ 7 = 128 := by norm_num
  have e14 : (2 : Nat) ^ 14 = 16384 := by norm_num
  have e21 : (2 : Nat) ^ 21 = 2097152 := by norm_num
  have i1 : b2 * 2 ^ 7 ||| b3 = b2 * 2 ^ 7 + b3 := by
    rw [Nat.mul_comm b2 (2 ^ 7)]
    exact (Nat.mul_add_lt_is_or (by omega) b2).symm
  have hb1 : b2 * 2 ^ 7 + b3 < 2 ^ 14 := by
    have : b2 * 2 ^ 7 ≤ 127 * 2 ^ 7 := Nat.mul_le_mul_right _ (by omega)
    omega
  have i2 : b1 * 2 ^ 14 ||| (b2 * 2 ^ 7 + b3) = b1 * 2 ^ 14 + (b2 * 2 ^ 7 + b3) := by
    rw [Nat.mul_comm b1 (2 ^ 14)]
    exact (Nat.mul_add_lt_is_or hb1 b1).symm
  have hb2 : b1 * 2 ^ 14 + (b2 * 2 ^ 7 + b3) < 2 ^ 21 := by
    have : b1 * 2 ^ 14 ≤ 127 * 2 ^ 14 := Nat.mul_le_mul_right _ (by omega)
    omega
  have i3 : b0 * 2 ^ 21 ||| (b1 * 2 ^ 14 + (b2 * 2 ^ 7 + b3)) =
      b0 * 2 ^ 21 + (b1 * 2 ^ 14 + (b2 * 2 ^ 7 + b3)) := by
    rw [Nat.mul_comm b0 (2 ^ 21)]
    exact (Nat.mul_add_lt_is_or hb2 b0).symm
  rw [i1, i2, i3]
  omega

/-- Witness for the amended claim C3 at the bytes 1 2 3 4. -/
theorem bodysize_eq_synchsafe_witness :
    (1 : Nat) < 128 ∧ (2 : Nat) < 128 ∧ (3 : Nat) < 128 ∧ (4 : Nat) < 128 ∧
    bodysizeOfBytes 1 2 3 4 = synchsafeSpecSize 1 2 3 4 :=
  ⟨by decide, by decide, by decide, by decide,
    bodysize_eq_synchsafe_of_high_bits_clear 1 2 3 4 (by decide) (by decide) (by decide)
      (by decide)⟩

/-! ### Claim C4

Claim: analyzeDirs loads the prior manifest from md5sum inside each
directory by default, or from the corresponding entry of an explicit
hashfile list.  The code refutes both halves: with an explicit list it
calls getDictionary on the hashfile attribute, which parseArgs set to
the absolute path of the FIRST list entry, for every directory; without
one it reads the method-local variable hashfile, which was never
assigned, raising UnboundLocalError. -/

/-- Claim C4 is false on the code: with hashfile list h1,h2 over the
directories d1 and d2, both iterations load the absolute path of h1
(never the corresponding h2), and in the default mode with no hashfile
option the loop raises UnboundLocalError on the first directory instead
of loading md5sum inside it. -/
theorem analyzeDirs_load_paths_bug :
    (analyzeDirsTrace "/base" (parseHashfile "/base" "h1,h2" initArgs) ["d1", "d2"]).map
        (Except.map (List.map Prod.fst)) = some (.ok ["/base/h1", "/base/h1"]) ∧
    pyAbspath "/base" "h2" = "/base/h2" ∧
    ("/base/h1" : String) ≠ "/base/h2" ∧
    analyzeDirsTrace "/base" initArgs ["d1"] = some (.error .unboundLocal) := by
  exact ⟨by decide, by decide, by decide, by decide⟩

/-! ### Claim C8

Claim: with an explicit hashfile list, each fresh manifest is persisted
to its own corresponding hashfile, each file written at most once.  The
code refutes it: the write always targets the hashfile attribute, the
absolute path of the first list entry, so every directory writes the
same file and later writes overwrite earlier ones. -/

/-- Claim C8 is false on the code: with hashfile list h1,h2 over d1 and
d2, both manifest writes target the absolute path of h1; the write
target list has a repeated element, so the same manifest file is
written twice in one invocation and d2 never writes h2. -/
theorem analyzeDirs_manifest_written_twice :
    (analyzeDirsTrace "/base" (parseHashfile "/base" "h1,h2" initArgs) ["d1", "d2"]).map
        (Except.map (List.map Prod.snd)) = some (.ok ["/base/h1", "/base/h1"]) ∧
    ¬ (["/base/h1", "/base/h1"] : List String).Nodup := by
  exact ⟨by decide, by decide⟩

/-! ### Claim C9

Claim: calculateUID seeks to 128 bytes before the end of the file
before anything else, so every mp3 file shorter than 128 bytes raises
an uncaught IOError instead of producing a checksum. -/

/-- Claim C9: on every content shorter than 128 bytes, calculateUID
raises IOError from its initial end-relative seek, and in mp3 mode
calcsum propagates that error for any mp3 path holding such content,
since its mp3 branch has no exception handler. -/
theorem calculateUID_short_file_raises (content : List Nat) (h : content.length < 128) :
    calculateUID content = .error .ioError ∧
    ∀ (fsys : String → Option (List Nat)) (path : String),
      fsys path = some content → pyEndsWith path ".mp3" = true →
      calcsum true fsys path = .error .ioError := by
  have h1 : calculateUID content = .error .ioError := by
    unfold calculateUID
    rw [if_pos h]
  refine ⟨h1, ?_⟩
  intro fsys path hf hend
  unfold calcsum
  simp [hend, hf, h1, Except.map]

/-- Witness for claim C9 at a 10 byte mp3 file. -/
theorem calculateUID_short_file_raises_witness :
    (List.replicate 10 0).length < 128 ∧
    (calculateUID (List.replicate 10 0) = .error .ioError ∧
      ∀ (fsys : String → Option (List Nat)) (path : String),
        fsys path = some (List.replicate 10 0) → pyEndsWith path ".mp3" = true →
        calcsum true fsys path = .error .ioError) :=
  ⟨by decide, calculateUID_short_file_raises (List.replicate 10 0) (by decide)⟩

/-! ### Claim C5

Claim: every unreadable file makes checksum computation return the
FileUnreadable sentinel, including the mp3 branch, and makesums
excludes the file and continues.  The code refutes the mp3 part: the
mp3 branch calls calculateUID outside any try block, so the IOError
from open propagates; the default branch does return the sentinel, and
makesums drops sentinel files and continues. -/

/-- Claim C5 as stated is false at a concrete input: in mp3 mode an
unreadable mp3 file makes calcsum propagate IOError rather than return
the FileUnreadable sentinel. -/
theorem calcsum_mp3_unreadable_raises :
    calcsum true (fun p => if p = "d/x.mp3" then none else some []) "d/x.mp3" =
      .error .ioError ∧
    (Except.error PyErr.ioError : Except PyErr CalcResult) ≠ .ok .fileUnreadable := by
  exact ⟨by decide, by decide⟩

/-- Claim C5 amended: for every file handled by the default branch of
calcsum (that is, not taken by the mp3 branch), an unreadable file
yields the FileUnreadable sentinel rather than an exception, and
makesums over a list of such files excludes exactly the unreadable ones
and completes without error. -/
theorem calcsum_default_branch_unreadable (mp3mode : Bool)
    (fsys : String → Option (List Nat)) (root : String) (files : List String)
    (h : ∀ f ∈ files, (mp3mode && pyEndsWith (pyJoin root f) ".mp3") = false) :
    makesums mp3mode fsys root files =
      .ok (files.filterMap fun f => (fsys (pyJoin root f)).map fun c => (f, chunkRead c)) ∧
    ∀ f ∈ files, fsys (pyJoin root f) = none →
      calcsum mp3mode fsys (pyJoin root f) = .ok .fileUnreadable := by
  constructor
  · induction files with
    | nil => rfl
    | cons f rest ih =>
      have hf := h f (List.mem_cons_self f rest)
      have htail := ih fun g hg => h g (List.mem_cons_of_mem f hg)
      have hcal : calcsum mp3mode fsys (pyJoin root f) =
          .ok (match fsys (pyJoin root f) with
               | none => CalcResult.fileUnreadable
               | some c => CalcResult.digestOf (chunkRead c)) := by
        unfold calcsum
        rw [if_neg (by simp [hf])]
        cases fsys (pyJoin root f) <;> rfl
      cases hc : fsys (pyJoin root f) with
      | none =>
        rw [hc] at hcal
        simp only [makesums, hcal, htail, List.filterMap_cons, hc, Option.map_none']
      | some c =>
        rw [hc] at hcal
        simp only [makesums, hcal, htail, List.filterMap_cons, hc, Option.map_some']
  · intro f hfm hnone
    have hf := h f hfm
    unfold calcsum
    simp [hf, hnone]

/-- Witness for the amended claim C5: with mp3 mode off, a readable and
an unreadable file, makesums keeps only the readable one and calcsum
returns the sentinel on the unreadable one. -/
theorem calcsum_default_branch_unreadable_witness :
    (∀ f ∈ ["good", "bad"],
      ((false : Bool) && pyEndsWith (pyJoin "r" f) ".mp3") = false) ∧
    (makesums false (fun p => if p = "r/good" then some [1, 2] else none) "r"
        ["good", "bad"] =
      .ok (["good", "bad"].filterMap fun f =>
        (((fun p => if p = "r/good" then some [1, 2] else none) : String → Option (List Nat))
            (pyJoin "r" f)).map fun c => (f, chunkRead c)) ∧
    ∀ f ∈ ["good", "bad"],
      (fun p => if p = "r/good" then some [1, 2] else none) (pyJoin "r" f) = none →
      calcsum false (fun p => if p = "r/good" then some [1, 2] else none) (pyJoin "r" f) =
        .ok .fileUnreadable) :=
  ⟨by decide,
    calcsum_default_branch_unreadable false
      (fun p => if p = "r/good" then some [1, 2] else none) "r" ["good", "bad"]
      (by decide)⟩

/-! ### Claim C7

Claim: diffing a manifest against itself yields no Added, Deleted or
Changed paths, and every path Unchanged.  The DictDiffer sets are
modelled from the spec, the dictdiff module being absent from the
sources. -/

/-- Claim C7: for every manifest A, the diff of A against itself
classifies nothing as Added, Deleted or Changed, and every path of A as
Unchanged. -/
theorem diff_self_classification (A : List (String × String)) :
    diffAdded A A = [] ∧ diffRemoved A A = [] ∧ diffChanged A A = [] ∧
    diffUnchanged A A = dKeys A := by
  refine ⟨?_, ?_, ?_, ?_⟩
  · unfold diffAdded
    apply List.filter_eq_nil_iff.mpr
    intro k hk
    simp only [List.contains, Bool.not_eq_true', Bool.not_eq_false]
    exact List.elem_iff.mpr hk
  · unfold diffRemoved
    apply List.filter_eq_nil_iff.mpr
    intro k hk
    simp only [List.contains, Bool.not_eq_true', Bool.not_eq_false]
    exact List.elem_iff.mpr hk
  · unfold diffChanged
    apply List.filter_eq_nil_iff.mpr
    intro k _
    simp [bne]
  · unfold diffUnchanged
    apply List.filter_eq_self.mpr
    intro k hk
    simp only [List.contains, Bool.and_eq_true, beq_self_eq_true, and_true]
    exact List.elem_iff.mpr hk

/-! ### Claim C10

Claim: the counts on the STATUS summary line come from the full
diff sets before the defensive ignore filtering, while the per path
lines are printed only for paths not matching the ignore set, so a
category whose diffed path matches an ignore pattern prints fewer lines
than its count, and the unchanged count is never filtered.  The set
computations come from the spec model of DictDiffer; the counting and
filtering under scrutiny are those of comparemd5dict and
outputFileList. -/

/-- A failed string prefix test survives appending more text, and the
length bound needed to chain such extensions grows with it. -/
theorem pyStartsWith_false_extend (full s t : String)
    (h : pyStartsWith s full = false) (hl : full.data.length ≤ s.data.length) :
    pyStartsWith (s ++ t) full = false ∧ full.data.length ≤ (s ++ t).data.length := by
  constructor
  · show labelPre full.data (s ++ t).data = false
    rw [strData_append]
    exact labelPre_append_false _ _ _ h hl
  · rw [strData_append, List.length_append]
    omega

/-- Number of lines of an outputFileList block carrying their own
label: one per file surviving the ignore filter. -/
theorem countP_outputFileList_self (ignores : List String) (label full : String)
    (l : List String) (hfull : label ++ ": " = full) :
    (outputFileList ignores label l).countP (fun s => pyStartsWith s full) =
      (l.filter fun f => !pyIgnore ignores f).length := by
  unfold outputFileList
  rw [List.countP_map]
  rw [List.countP_eq_length.mpr]
  intro f _
  simp only [Function.comp]
  show pyStartsWith (label ++ ": " ++ f) full = true
  rw [hfull]
  exact pyStartsWith_label full f

/-- Lines of an outputFileList block never pass the prefix test of a
label whose text mismatches within the compared region. -/
theorem countP_outputFileList_other (ignores : List String) (label full : String)
    (l : List String)
    (h : pyStartsWith (label ++ ": ") full = false)
    (hl : full.data.length ≤ (label ++ ": ").data.length) :
    (outputFileList ignores label l).countP (fun s => pyStartsWith s full) = 0 := by
  unfold outputFileList
  rw [List.countP_map]
  apply List.countP_eq_zero.mpr
  intro f _
  simp only [Function.comp]
  show ¬ pyStartsWith (label ++ ": " ++ f) full = true
  rw [(pyStartsWith_false_extend full (label ++ ": ") f h hl).1]
  simp

/-- Claim C10: when a diffed path of the Added set matches the ignore
set, the report of comparemd5dict contains fewer ADDED lines than the
added count, and the STATUS line it contains carries the unfiltered
sizes of all four sets, the unchanged count among them. -/
theorem comparemd5dict_status_counts_unfiltered
    (ignores : List String) (d1 d2 : List (String × String)) (root : String)
    (a : String) (ha : a ∈ diffAdded d2 d1) (hig : pyIgnore ignores a = true) :
    ((comparemd5dict ignores d1 d2 root).countP fun s => pyStartsWith s "ADDED: ") <
      (diffAdded d2 d1).length ∧
    ("STATUS: confirmed " ++ Nat.repr (diffUnchanged d2 d1).length ++
      " added " ++ Nat.repr (diffAdded d2 d1).length ++
      " deleted " ++ Nat.repr (diffRemoved d2 d1).length ++
      " changed " ++ Nat.repr (diffChanged d2 d1).length) ∈
      comparemd5dict ignores d1 d2 root := by
  constructor
  · unfold comparemd5dict
    simp only [List.countP_append]
    rw [countP_outputFileList_self ignores "ADDED" "ADDED: " _ rfl]
    rw [countP_outputFileList_other ignores "DELETED" "ADDED: " _ (by decide) (by decide)]
    rw [countP_outputFileList_other ignores "CHANGED" "ADDED: " _ (by decide) (by decide)]
    have hloc :=
      pyStartsWith_false_extend "ADDED: " "LOCATION: " root (by decide) (by decide)
    have st1 := pyStartsWith_false_extend "ADDED: " "STATUS: confirmed "
      (Nat.repr (diffUnchanged d2 d1).length) (by decide) (by decide)
    have st2 := pyStartsWith_false_extend "ADDED: " _ " added " st1.1 st1.2
    have st3 := pyStartsWith_false_extend "ADDED: " _
      (Nat.repr (diffAdded d2 d1).length) st2.1 st2.2
    have st4 := pyStartsWith_false_extend "ADDED: " _ " deleted " st3.1 st3.2
    have st5 := pyStartsWith_false_extend "ADDED: " _
      (Nat.repr (diffRemoved d2 d1).length) st4.1 st4.2
    have st6 := pyStartsWith_false_extend "ADDED: " _ " changed " st5.1 st5.2
    have st7 := pyStartsWith_false_extend "ADDED: " _
      (Nat.repr (diffChanged d2 d1).length) st6.1 st6.2
    rw [List.countP_cons_of_neg, List.countP_cons_of_neg, List.countP_nil]
    · have hle := List.length_filter_le (fun f => !pyIgnore ignores f) (diffAdded d2 d1)
      rcases Nat.lt_or_ge ((List.filter (fun f => !pyIgnore ignores f)
          (diffAdded d2 d1)).length) ((diffAdded d2 d1).length) with hlt | hge
      · simpa using hlt
      · exfalso
        have heq : (List.filter (fun f => !pyIgnore ignores f) (diffAdded d2 d1)).length =
            (diffAdded d2 d1).length := Nat.le_antisymm hle hge
        have hall := List.countP_eq_length.mp (by
          rw [← List.countP_eq_length_filter] at heq
          exact heq)
        have hcontra := hall a ha
        rw [hig] at hcontra
        simp at hcontra
    · simp only [st7.1, Bool.false_eq_true, not_false_eq_true]
    · simp only [hloc.1, Bool.false_eq_true, not_false_eq_true]
  · unfold comparemd5dict
    simp

/-- Witness for claim C10: one added path matching the ignore set makes
the report print no ADDED line while the STATUS line counts one added
path. -/
theorem comparemd5dict_status_counts_witness :
    "secret1" ∈ diffAdded [("b", "s2"), ("secret1", "s9")] [("b", "s2")] ∧
    pyIgnore ["secret*"] "secret1" = true ∧
    (((comparemd5dict ["secret*"] [("b", "s2")] [("b", "s2"), ("secret1", "s9")]
          "/r").countP fun s => pyStartsWith s "ADDED: ") <
        (diffAdded [("b", "s2"), ("secret1", "s9")] [("b", "s2")]).length ∧
      ("STATUS: confirmed " ++
        Nat.repr (diffUnchanged [("b", "s2"), ("secret1", "s9")] [("b", "s2")]).length ++
        " added " ++
        Nat.repr (diffAdded [("b", "s2"), ("secret1", "s9")] [("b", "s2")]).length ++
        " deleted " ++
        Nat.repr (diffRemoved [("b", "s2"), ("secret1", "s9")] [("b", "s2")]).length ++
        " changed " ++
        Nat.repr (diffChanged [("b", "s2"), ("secret1", "s9")] [("b", "s2")]).length) ∈
        comparemd5dict ["secret*"] [("b", "s2")] [("b", "s2"), ("secret1", "s9")] "/r") :=
  ⟨by decide, by decide,
    comparemd5dict_status_counts_unfiltered ["secret*"] [("b", "s2")]
      [("b", "s2"), ("secret1", "s9")] "/r" "secret1" (by decide) (by decide)⟩

/-! ### Claim C6: lemmas about lines, the md5line pattern and lookups -/

/-- Reading one newline-terminated block off the front of a stream
yields that block as a line, with the pending accumulator prepended. -/
theorem pyLinesAux_line : ∀ (body acc rest : List Char), '\n' ∉ body →
    pyLinesAux acc (body ++ '\n' :: rest) =
      (acc.reverse ++ body ++ ['\n']) :: pyLinesAux [] rest := by
  intro body
  induction body with
  | nil =>
    intro acc rest _
    simp [pyLinesAux]
  | cons c body ih =>
    intro acc rest h
    have hc : ¬ c = '\n' := fun e => h (by rw [← e]; exact List.mem_cons_self c body)
    have hb : '\n' ∉ body := fun e => h (List.mem_cons_of_mem _ e)
    rw [List.cons_append, pyLinesAux, if_neg hc, ih (c :: acc) rest hb]
    simp

/-- Splitting a concatenation of newline-terminated lines recovers
exactly those lines. -/
theorem pyLines_flatten : ∀ ls : List (List Char),
    (∀ l ∈ ls, ∃ b, l = b ++ ['\n'] ∧ '\n' ∉ b) → pyLines ls.flatten = ls := by
  intro ls
  induction ls with
  | nil => intro _; rfl
  | cons l ls ih =>
    intro h
    obtain ⟨b, hb, hbn⟩ := h l (List.mem_cons_self l ls)
    rw [List.flatten_cons, hb]
    show pyLinesAux [] ((b ++ ['\n']) ++ ls.flatten) = _
    rw [List.append_assoc, List.singleton_append, pyLinesAux_line b [] ls.flatten hbn]
    rw [show pyLinesAux [] ls.flatten = pyLines ls.flatten from rfl,
      ih fun l hl => h l (List.mem_cons_of_mem _ hl)]
    simp

/-- Hex digits are never newlines. -/
theorem isHexLower_ne_newline (c : Char) (h : isHexLower c = true) : ¬ c = '\n' := by
  intro e
  rw [e] at h
  exact absurd h (by decide)

/-- A character list avoiding the newline character fails the newline
search of md5lineBody. -/
theorem any_newline_eq_false (l : List Char) (h : '\n' ∉ l) :
    l.any (· = '\n') = false := by
  apply List.any_eq_false.mpr
  intro c hc
  simp only [decide_eq_true_eq]
  intro e
  rw [e] at hc
  exact h hc

/-- The body of an entry line contains no newline when the filename
contains none and the checksum is hexadecimal. -/
theorem no_newline_entry_body (f s : List Char) (hhex : s.all isHexLower = true)
    (hf : '\n' ∉ f) : '\n' ∉ s ++ [' ', ' '] ++ f := by
  intro hmem
  rcases List.mem_append.mp hmem with h2 | h2
  · rcases List.mem_append.mp h2 with h3 | h3
    · exact isHexLower_ne_newline '\n' (List.all_eq_true.mp hhex '\n' h3) rfl
    · exact absurd h3 (by decide)
  · exact hf h2

/-- An entry line written by writesums parses back under the md5line
pattern to its checksum and filename. -/
theorem md5line_entryLine (f s : List Char) (hs32 : s.length = 32)
    (hhex : s.all isHexLower = true) (hf : '\n' ∉ f) :
    md5line (entryLine (f, s)) = some (s, f) := by
  have hany : (s ++ [' ', ' '] ++ f).any (· = '\n') = false :=
    any_newline_eq_false _ (no_newline_entry_body f s hhex hf)
  show md5line ((s ++ [' ', ' '] ++ f) ++ ['\n']) = some (s, f)
  unfold md5line
  rw [List.getLast?_concat, if_pos rfl, List.dropLast_concat]
  unfold md5lineBody
  rw [hany]
  simp only [Bool.false_eq_true, if_false]
  rw [List.append_assoc s [' ', ' '] f, List.take_left' hs32, List.drop_left' hs32]
  rw [if_pos (by simp [hs32, hhex])]
  simp

/-- Looking up the key just inserted returns the inserted value. -/
theorem alookup_dinsert_self (d : List (List Char × List Char)) (k v : List Char) :
    alookup (dinsert d k v) k = some v := by
  induction d with
  | nil => simp [dinsert, alookup]
  | cons e rest ih =>
    obtain ⟨k3, v3⟩ := e
    by_cases h : k3 = k
    · simp [dinsert, h, alookup]
    · simp [dinsert, h, alookup, ih]

/-- Inserting a binding leaves lookups of other keys unchanged. -/
theorem alookup_dinsert_ne (d : List (List Char × List Char)) (k v k2 : List Char)
    (h : ¬ k2 = k) : alookup (dinsert d k v) k2 = alookup d k2 := by
  have h2 : ¬ k = k2 := fun e2 => h e2.symm
  induction d with
  | nil =>
    show (if k = k2 then some v else none) = none
    rw [if_neg h2]
  | cons e rest ih =>
    obtain ⟨k3, v3⟩ := e
    by_cases he : k3 = k
    · show alookup (if k3 = k then (k, v) :: rest else (k3, v3) :: dinsert rest k v) k2 = _
      rw [if_pos he]
      show (if k = k2 then some v else alookup rest k2) = _
      rw [if_neg h2]
      show _ = (if k3 = k2 then some v3 else alookup rest k2)
      rw [if_neg (he ▸ h2)]
    · show alookup (if k3 = k then (k, v) :: rest else (k3, v3) :: dinsert rest k v) k2 = _
      rw [if_neg he]
      show (if k3 = k2 then some v3 else alookup (dinsert rest k v) k2) =
        (if k3 = k2 then some v3 else alookup rest k2)
      rw [ih]

/-- A key absent from the first projections of an association list has
no binding. -/
theorem alookup_eq_none_of_not_mem (d : List (List Char × List Char)) (k : List Char)
    (h : k ∉ d.map Prod.fst) : alookup d k = none := by
  induction d with
  | nil => rfl
  | cons e rest ih =>
    obtain ⟨k3, v3⟩ := e
    have h1 : ¬ k3 = k := fun e2 => h (by rw [← e2]; exact List.mem_cons_self _ _)
    have h2 : k ∉ rest.map Prod.fst := fun hm => h (List.mem_cons_of_mem _ hm)
    show (if k3 = k then some v3 else alookup rest k) = none
    rw [if_neg h1, ih h2]

/-- With no duplicate keys, a successful lookup is exactly membership
of the binding. -/
theorem alookup_eq_some_iff (d : List (List Char × List Char)) (k v : List Char)
    (hnd : (d.map Prod.fst).Nodup) : alookup d k = some v ↔ (k, v) ∈ d := by
  induction d with
  | nil => simp [alookup]
  | cons e rest ih =>
    obtain ⟨k3, v3⟩ := e
    rw [List.map_cons, List.nodup_cons] at hnd
    constructor
    · intro h
      by_cases he : k3 = k
      · rw [show alookup ((k3, v3) :: rest) k = some v3 from by simp [alookup, he]] at h
        cases h
        rw [← he]
        exact List.mem_cons_self _ _
      · rw [show alookup ((k3, v3) :: rest) k = alookup rest k from by
            simp [alookup, he]] at h
        exact List.mem_cons_of_mem _ ((ih hnd.2).mp h)
    · intro h
      rcases List.mem_cons.mp h with h2 | h2
      · rw [show (k3, v3) = (k, v) from h2.symm]
        simp [alookup]
      · have hk : k ∈ rest.map Prod.fst :=
          List.mem_map.mpr ⟨(k, v), h2, rfl⟩
        have he : ¬ k3 = k := fun e2 => hnd.1 (e2 ▸ hk)
        rw [show alookup ((k3, v3) :: rest) k = alookup rest k from by simp [alookup, he]]
        exact (ih hnd.2).mpr h2

/-- Permuted association lists with duplicate-free keys agree on every
lookup. -/
theorem alookup_perm (l1 l2 : List (List Char × List Char)) (h : l1.Perm l2)
    (hnd : (l2.map Prod.fst).Nodup) (k : List Char) : alookup l1 k = alookup l2 k := by
  have hnd1 : (l1.map Prod.fst).Nodup := (h.map Prod.fst).nodup_iff.mpr hnd
  cases hl : alookup l1 k with
  | none =>
    have hm : k ∉ l1.map Prod.fst := by
      intro hmem
      rcases List.mem_map.mp hmem with ⟨e, he, hek⟩
      have : alookup l1 k = some e.2 := by
        rw [← hek]
        exact (alookup_eq_some_iff l1 e.1 e.2 hnd1).mpr (by
          rw [show (e.1, e.2) = e from rfl]
          exact he)
      rw [hl] at this
      cases this
    have : k ∉ l2.map Prod.fst := fun hm2 => hm ((h.map Prod.fst).mem_iff.mpr hm2)
    exact (alookup_eq_none_of_not_mem l2 k this).symm
  | some v =>
    have : (k, v) ∈ l2 := h.mem_iff.mp ((alookup_eq_some_iff l1 k v hnd1).mp hl)
    exact ((alookup_eq_some_iff l2 k v hnd).mpr this).symm

/-- Folding well-formed entry lines into a dictionary makes lookups
take the first matching entry, falling back to the initial
dictionary. -/
theorem getDictLines_entries : ∀ (entries d : List (List Char × List Char)) (k : List Char),
    (entries.map Prod.fst).Nodup →
    (∀ e ∈ entries, e.2.length = 32 ∧ e.2.all isHexLower = true ∧ '\n' ∉ e.1) →
    alookup (getDictLines (entries.map entryLine) d) k =
      match alookup entries k with
      | some v => some v
      | none => alookup d k := by
  intro entries
  induction entries with
  | nil =>
    intro d k _ _
    rfl
  | cons e rest ih =>
    intro d k hnd hval
    obtain ⟨f, s⟩ := e
    obtain ⟨hs32, hhex, hfn⟩ := hval (f, s) (List.mem_cons_self _ _)
    rw [List.map_cons]
    rw [show getDictLines (entryLine (f, s) :: rest.map entryLine) d =
        getDictLines (rest.map entryLine) (dinsert d f s) from by
      rw [getDictLines, md5line_entryLine f s hs32 hhex hfn]]
    rw [List.map_cons, List.nodup_cons] at hnd
    rw [ih (dinsert d f s) k hnd.2 fun e2 he => hval e2 (List.mem_cons_of_mem _ he)]
    by_cases hk : k = f
    · subst hk
      have hrest : alookup rest k = none := alookup_eq_none_of_not_mem rest k hnd.1
      rw [hrest, show alookup ((k, s) :: rest) k = some s from by simp [alookup]]
      show alookup (dinsert d k s) k = some s
      exact alookup_dinsert_self d k s
    · have h1 : alookup ((f, s) :: rest) k = alookup rest k := by
        show (if f = k then some s else alookup rest k) = alookup rest k
        rw [if_neg fun e2 => hk e2.symm]
      rw [h1, alookup_dinsert_ne d f s k hk]

/-- The header line written by writesums never matches the md5line
pattern: its first character is the hash mark, which is not a
hexadecimal digit. -/
theorem md5line_headerLine (root : List Char) (hroot : '\n' ∉ root) :
    md5line (headerLine root) = none := by
  show md5line ((([Char.ofNat 35] ++ "md5dir ".data) ++ root) ++ ['\n']) = none
  unfold md5line
  rw [List.getLast?_concat, if_pos rfl, List.dropLast_concat]
  unfold md5lineBody
  have hanyh : ((([Char.ofNat 35] ++ "md5dir ".data) ++ root).any (· = '\n')) = false := by
    apply any_newline_eq_false
    intro hmem
    rcases List.mem_append.mp hmem with h2 | h2
    · exact absurd h2 (by decide)
    · exact hroot h2
  rw [hanyh]
  simp only [Bool.false_eq_true, if_false]
  rw [if_neg]
  intro hcond
  simp only [Bool.and_eq_true, decide_eq_true_eq] at hcond
  have hmem : Char.ofNat 35 ∈
      (([Char.ofNat 35] ++ "md5dir ".data) ++ root).take 32 := by
    show Char.ofNat 35 ∈ Char.ofNat 35 :: ("md5dir ".data ++ root).take 31
    exact List.mem_cons_self _ _
  have := List.all_eq_true.mp hcond.2 _ hmem
  exact absurd this (by decide)

/-! ### Claim C6: the round trip

Claim: saving a non-empty manifest with writesums and loading the file
back with getDictionary yields exactly the manifest, provided the paths
contain no newline and the checksums are thirty-two lowercase hex
characters.  Confirmed; the root annotation written into the header is
likewise required to contain no newline, the manifest data model of the
spec counting it among the manifest paths. -/

/-- Claim C6: for every non-empty manifest whose keys are free of
duplicates and newlines and whose checksums are 32 lowercase hex
characters, and every root annotation free of newlines, loading the
file written by writesums yields a dictionary with exactly the
bindings of the manifest: the header line is skipped and every entry
line round-trips. -/
theorem writesums_getDictionary_roundtrip
    (M : List (List Char × List Char)) (root : List Char)
    (_hne : M ≠ [])
    (hnd : (M.map Prod.fst).Nodup)
    (hval : ∀ e ∈ M, e.2.length = 32 ∧ e.2.all isHexLower = true ∧ '\n' ∉ e.1)
    (hroot : '\n' ∉ root) :
    ∀ k, alookup (getDictionary (some (writesums root M))) k = alookup M k := by
  intro k
  have hperm : (M.insertionSort entryLe).Perm M := List.perm_insertionSort entryLe M
  have hndS : ((M.insertionSort entryLe).map Prod.fst).Nodup :=
    (hperm.map Prod.fst).nodup_iff.mpr hnd
  have hvalS : ∀ e ∈ M.insertionSort entryLe,
      e.2.length = 32 ∧ e.2.all isHexLower = true ∧ '\n' ∉ e.1 :=
    fun e he => hval e (hperm.mem_iff.mp he)
  have hlines : pyLines (writesums root M) =
      headerLine root :: (M.insertionSort entryLe).map entryLine := by
    show pyLines (headerLine root ++ ((M.insertionSort entryLe).map entryLine).flatten) = _
    rw [← List.flatten_cons]
    apply pyLines_flatten
    intro l hl
    rcases List.mem_cons.mp hl with h1 | h1
    · refine ⟨([Char.ofNat 35] ++ "md5dir ".data) ++ root, by rw [h1]; rfl, ?_⟩
      intro hmem
      rcases List.mem_append.mp hmem with h2 | h2
      · exact absurd h2 (by decide)
      · exact hroot h2
    · rcases List.mem_map.mp h1 with ⟨e, he, hel⟩
      obtain ⟨f, s⟩ := e
      obtain ⟨_, hhex, hfn⟩ := hvalS (f, s) he
      exact ⟨s ++ [' ', ' '] ++ f, by rw [← hel]; rfl,
        no_newline_entry_body f s hhex hfn⟩
  show alookup (getDictLines (pyLines (writesums root M)) []) k = alookup M k
  rw [hlines]
  rw [show getDictLines (headerLine root :: (M.insertionSort entryLe).map entryLine) [] =
      getDictLines ((M.insertionSort entryLe).map entryLine) [] from by
    rw [getDictLines, md5line_headerLine root hroot]]
  rw [getDictLines_entries (M.insertionSort entryLe) [] k hndS hvalS]
  have He := alookup_perm (M.insertionSort entryLe) M hperm hnd k
  cases h2 : alookup (M.insertionSort entryLe) k with
  | some v =>
    rw [h2] at He
    show some v = alookup M k
    exact He
  | none =>
    rw [h2] at He
    show alookup ([] : List (List Char × List Char)) k = alookup M k
    exact He

/-- Witness for claim C6 at a one-entry manifest. -/
theorem writesums_getDictionary_roundtrip_witness :
    ([("a".data, "0123456789abcdef0123456789abcdef".data)] :
        List (List Char × List Char)) ≠ [] ∧
    (([("a".data, "0123456789abcdef0123456789abcdef".data)] :
        List (List Char × List Char)).map Prod.fst).Nodup ∧
    (∀ e ∈ ([("a".data, "0123456789abcdef0123456789abcdef".data)] :
        List (List Char × List Char)),
      e.2.length = 32 ∧ e.2.all isHexLower = true ∧ '\n' ∉ e.1) ∧
    '\n' ∉ "/r".data ∧
    ∀ k, alookup (getDictionary (some (writesums "/r".data
        [("a".data, "0123456789abcdef0123456789abcdef".data)]))) k =
      alookup [("a".data, "0123456789abcdef0123456789abcdef".data)] k :=
  ⟨by decide, by decide, by decide, by decide,
    writesums_getDictionary_roundtrip
      [("a".data, "0123456789abcdef0123456789abcdef".data)] "/r".data
      (by decide) (by decide) (by decide) (by decide)⟩

end Md5dir
